import Mathlib

/-! Verification development for the nonlinear optimization engine in
`Final - Python/working_notebook_ullas.ipynb` of the
Engineering-Optimization repository.

Modelling conventions:
* numpy float scalars are embedded as rationals `ℚ`;
* design vectors are `Vec n := Fin n → ℚ`, matrices are `Mat n`;
* `np.linalg.norm` of a vector is the Euclidean norm, which is irrational
  on rational inputs, so the vector-norm primitive is abstracted as an
  explicit parameter `normF`, exactly as the bounded scalar minimizer
  `opt.fminbound` (treated by the design as an externally supplied
  numerical primitive) is abstracted as a line-search parameter `ls`;
  `np.linalg.norm` of a scalar difference is exactly the absolute value
  and is embedded as `|·|`;
* the `while not convergence` loops terminate because the
  iteration-budget check eventually fires; they are embedded through the
  fuel-indexed combinator `runLoop`, invoked with fuel `max_iter + 1`,
  which is enough for the fuel-out branch to be unreachable.
-/

/-- Design vector of dimension `n` (an ordered sequence of reals). -/
abbrev Vec (n : Nat) := Fin n → ℚ

/-- Square matrix of dimension `n × n` (the Hessian approximation). -/
abbrev Mat (n : Nat) := Fin n → Fin n → ℚ

/-- Objective capability `f : design_vector → real`. -/
abbrev Objective (n : Nat) := Vec n → ℚ

/-- Differentiation capability: the `delta_f` parameter of the solvers,
taking an objective and a point and returning a gradient estimate. -/
abbrev GradOracle (n : Nat) := Objective n → Vec n → Vec n

/-- Constraint capability `con : design_vector → (g, h)`; `g` and `h` are
ordered sequences of inequality / equality residuals, either possibly
empty, so they are modelled as lists. -/
abbrev Constr (n : Nat) := Vec n → List ℚ × List ℚ

/-- Bounded scalar minimizer primitive: models `opt.fminbound(phi, 0, 1)`,
returning a step `alpha`. -/
abbrev LineSearch := (ℚ → ℚ) → ℚ

/-- Vector-norm primitive: models `np.linalg.norm` on vectors. -/
abbrev NormFn (n : Nat) := Vec n → ℚ

/-- Dot product `u·v` (numpy `u.T @ v` on column vectors). -/
def dotV {n : Nat} (u v : Vec n) : ℚ := ∑ i, u i * v i

/-- Matrix-vector product `B @ v`. -/
def matVec {n : Nat} (B : Mat n) (v : Vec n) : Vec n := fun i => ∑ j, B i j * v j

/-- Row-vector-matrix product `v.T @ B`. -/
def vecMat {n : Nat} (v : Vec n) (B : Mat n) : Vec n := fun j => ∑ i, v i * B i j

/-- Quadratic form `v·B·v` as written in the spec (`delta_g·B·delta_g`). -/
def quadForm {n : Nat} (B : Mat n) (v : Vec n) : ℚ := ∑ i, v i * ∑ j, B i j * v j

/-- Embedding of `forward_diff(f, x, h)`: entry `i` is
`(f(x_forw) - f(x)) / h` where `x_forw` is a copy of `x` with entry `i`
incremented by `h`. -/
def forward_diff {n : Nat} (f : Objective n) (x : Vec n) (h : ℚ) : Vec n :=
  fun i => (f (Function.update x i (x i + h)) - f x) / h

/-- Instrumentation for `forward_diff`: the list of argument vectors at
which `f` is evaluated, in the order of the source loop.  Each loop pass
evaluates `f(x_forw)` and then `f(x)` (the baseline is re-evaluated on
every pass, not cached). -/
def forward_diff_evalArgs {n : Nat} (x : Vec n) (h : ℚ) : List (Vec n) :=
  (List.finRange n).flatMap fun i => [Function.update x i (x i + h), x]

/-- Embedding of `central_diff(f, x, h)`. -/
def central_diff {n : Nat} (f : Objective n) (x : Vec n) (h : ℚ) : Vec n :=
  fun i => (f (Function.update x i (x i + h)) - f (Function.update x i (x i - h))) / (2 * h)

/-- Default finite-difference step `h = 1e-8` from the source signatures. -/
def default_diff_h : ℚ := 1 / 100000000

/-- Shared accumulation `con_sum` of `constrained_to_unconstrained` and
`calc_augmented_lagrangian`: a running sum over `max(0, g[i])**2` followed
by `h[i]**2`, starting from `0`, exactly as the two identical source
loops compute it. -/
def penalty_sum (g h : List ℚ) : ℚ :=
  h.foldl (fun acc hi => acc + hi ^ 2) (g.foldl (fun acc gi => acc + (max 0 gi) ^ 2) 0)

/-- Embedding of `constrained_to_unconstrained(f, con, x, p)`: returns the
surrogate objective.  The `x` argument is unused by the source function
(its inner definition shadows it), which the embedding mirrors. -/
def constrained_to_unconstrained {n : Nat} (f : Objective n) (con : Constr n)
    (_x : Vec n) (p : ℚ) : Objective n :=
  fun y => f y + p * penalty_sum (con y).1 (con y).2

/-- Default penalty parameter `p = 100` from the source signature. -/
def constrained_to_unconstrained_default_p : ℚ := 100

/-- Dot product of two numpy 1-d arrays of equal length (`u @ v`). -/
def ldot (u v : List ℚ) : ℚ := (List.zipWith (fun a b => a * b) u v).sum

/-- Embedding of `calc_lagrangian(f, con, x, lambda_, mu)`:
`f(x) + lambda_ @ h + mu @ g`. -/
def calc_lagrangian {n : Nat} (f : Objective n) (con : Constr n) (x : Vec n)
    (lam mu : List ℚ) : ℚ :=
  f x + ldot lam (con x).2 + ldot mu (con x).1

/-- Embedding of `calc_augmented_lagrangian(f, con, x, lambda_, mu, rho)`. -/
def calc_augmented_lagrangian {n : Nat} (f : Objective n) (con : Constr n) (x : Vec n)
    (lam mu : List ℚ) (rho : ℚ) : ℚ :=
  calc_lagrangian f con x lam mu + rho * penalty_sum (con x).1 (con x).2

/-- Embedding of `scale(x_raw, x_ref) = np.divide(x_raw, x_ref)`. -/
def scale {n : Nat} (x_raw x_ref : Vec n) : Vec n := fun i => x_raw i / x_ref i

/-- Embedding of `descale(x_scaled, x_ref) = np.multiply(x_scaled, x_ref)`. -/
def descale {n : Nat} (x_scaled x_ref : Vec n) : Vec n := fun i => x_scaled i * x_ref i

/-- Unguarded arithmetic of `BFGS_update(B, delta_x, delta_delta)`, entry
by entry, with column-vector numpy semantics (`delta_x @ delta_x.T` is an
outer product, `delta_delta.T @ B` a row vector).  Divisions use the total
field division of `ℚ`; see `BFGS_update` for the fallible version that
marks the zero denominator. -/
def BFGS_update_total {n : Nat} (B : Mat n) (delta_x delta_g : Vec n) : Mat n :=
  fun i j =>
    (1 + dotV (vecMat delta_g B) delta_g / dotV delta_g delta_x) * (delta_x i * delta_x j)
        / dotV delta_x delta_g
      - (delta_x i * vecMat delta_g B j + vecMat delta_g B i * delta_x j)
        / dotV delta_x delta_g

/-- Fallible embedding of `BFGS_update`: the source performs the division
unguarded (numpy floats yield non-finite values on a zero denominator);
the embedding marks that undefined case as `none`. -/
def BFGS_update {n : Nat} (B : Mat n) (delta_x delta_g : Vec n) : Option (Mat n) :=
  if dotV delta_x delta_g = 0 then none else some (BFGS_update_total B delta_x delta_g)

/-- Unguarded arithmetic of `DFP_update(B, delta_x, delta_delta)`. -/
def DFP_update_total {n : Nat} (B : Mat n) (delta_x delta_g : Vec n) : Mat n :=
  fun i j =>
    delta_x i * delta_x j / dotV delta_x delta_g
      - matVec B delta_g i * matVec B delta_g j / dotV (vecMat delta_g B) delta_g

/-- Fallible embedding of `DFP_update`: `none` when either denominator
(`delta_x·delta_delta` or `delta_delta·B·delta_delta`) is zero. -/
def DFP_update {n : Nat} (B : Mat n) (delta_x delta_g : Vec n) : Option (Mat n) :=
  if dotV delta_x delta_g = 0 then none
  else if dotV (vecMat delta_g B) delta_g = 0 then none
  else some (DFP_update_total B delta_x delta_g)

/-- Concrete data used to instantiate hypothesis-bearing theorems. -/
def exB : Mat 1 := fun _ _ => 2

/-- Concrete `delta_x` for the `C6` instantiation. -/
def exDx : Vec 1 := fun _ => 1

/-- Concrete `delta_g` with positive curvature for the `C6` instantiation. -/
def exDg : Vec 1 := fun _ => 3

/-- Concrete `delta_g` with zero curvature (`delta_x·delta_g = 0`). -/
def exDgZ : Vec 1 := fun _ => 0

/-- Concrete two-dimensional point for the `C7` counterexample. -/
def exX2 : Vec 2 := fun _ => 0

/-- Concrete vector for the `C9` witness. -/
def exX9 : Vec 2 := fun i => if i = 0 then 3 else 4

/-- Concrete componentwise-nonzero reference vector for the `C9` witness. -/
def exRef9 : Vec 2 := fun i => if i = 0 then 2 else 5

/-- Result record of a solver call with `full_output=True`:
`(x_new, f(x_new), exit_flag, iter)`; the terse call shape returns just
the `x` field. -/
structure SolveResult (n : Nat) where
  x : Vec n
  fval : ℚ
  flag : Nat
  iters : Nat

/-- Shared convergence check of the four solver loops, translated from
their identical `if/elif` chain: iteration budget first (flag 0), then
gradient norm (flag 1), then step norm (flag 2), then objective delta
(flag 3); `none` when no terminal condition holds and the loop is to
continue. -/
def convCheck (max_iter iter : Nat)
    (gnorm stepnorm fdelta grad_tol delta_x_tol delta_f_tol : ℚ) : Option Nat :=
  if iter ≥ max_iter then some 0
  else if gnorm ≤ grad_tol then some 1
  else if stepnorm ≤ delta_x_tol then some 2
  else if fdelta ≤ delta_f_tol then some 3
  else none

/-- Outcome of `runLoop`: final state, exit flag, iteration count, and an
instrumentation trace of the states reached after each loop pass. -/
structure RunOut (σ : Type) where
  st : σ
  flag : Nat
  iters : Nat
  trace : List σ

/-- Fuel-indexed embedding of the `while not convergence` loops: each
pass runs the loop body, increments the iteration counter, and stops with
the first flag produced by the check.  The fuel-out branch returns the
sentinel flag 4 and is unreachable when the fuel exceeds the remaining
iteration budget (see `runLoop_flag_le`); every solver below invokes it
with fuel `max_iter + 1`. -/
def runLoop {σ : Type} (body : Nat → σ → σ) (check : Nat → σ → Option Nat) :
    Nat → Nat → σ → RunOut σ
  | 0, iter, st => ⟨st, 4, iter, []⟩
  | fuel + 1, iter, st =>
    let st2 := body iter st
    match check (iter + 1) st2 with
    | some fl => ⟨st2, fl, iter + 1, [st2]⟩
    | none =>
      let r := runLoop body check fuel (iter + 1) st2
      ⟨r.st, r.flag, r.iters, st2 :: r.trace⟩

/-- State reached after `k` passes of a loop body started at `st`,
matching the iteration counter passed by `runLoop` to each pass. -/
def stateAt {σ : Type} (body : Nat → σ → σ) : Nat → σ → σ
  | 0, st => st
  | k + 1, st => body k (stateAt body k st)

/-- Default convergence tolerance `1e-5` shared by the solver signatures
(`grad_tol`, `delta_f_tol` and `delta_x_tol` all default to it). -/
def default_tol : ℚ := 1 / 100000

/-- Loop body of `steepest_descent`; the state is the pair
`(previous x, current x)`.  Direction `s = -delta_f(f, x)` normalized by
the norm primitive, bounded line search for `alpha`, then
`x_new = x + alpha·s`. -/
def sd_body {n : Nat} (f : Objective n) (grad : GradOracle n) (normF : NormFn n)
    (ls : LineSearch) (_iter : Nat) (st : Vec n × Vec n) : Vec n × Vec n :=
  let x := st.2
  let s0 := -(grad f x)
  let s : Vec n := fun i => s0 i / normF s0
  let alpha := ls fun a => f (x + a • s)
  (x, x + alpha • s)

/-- Convergence check of `steepest_descent` on the post-pass state. -/
def sd_check {n : Nat} (f : Objective n) (grad : GradOracle n) (normF : NormFn n)
    (max_iter : Nat) (grad_tol delta_x_tol delta_f_tol : ℚ)
    (iter : Nat) (st : Vec n × Vec n) : Option Nat :=
  convCheck max_iter iter (normF (grad f st.2)) (normF (st.2 - st.1))
    |f st.2 - f st.1| grad_tol delta_x_tol delta_f_tol

/-- Embedding of `steepest_descent(f, x, delta_f, grad_tol, delta_f_tol,
delta_x_tol, max_iter)` with full output; the terse call shape is the `x`
field of the result. -/
def steepest_descent {n : Nat} (f : Objective n) (x : Vec n) (grad : GradOracle n)
    (normF : NormFn n) (ls : LineSearch)
    (grad_tol delta_f_tol delta_x_tol : ℚ) (max_iter : Nat) : SolveResult n :=
  let r := runLoop (sd_body f grad normF ls)
    (sd_check f grad normF max_iter grad_tol delta_x_tol delta_f_tol) (max_iter + 1) 0 (x, x)
  ⟨r.st.2, f r.st.2, r.flag, r.iters⟩

/-- Loop-carried state of `conjugate_gradient`: previous point `x`,
current point `x_new`, and the previous normalized direction `s`. -/
structure CGState (n : Nat) where
  x : Vec n
  x_new : Vec n
  s : Vec n

/-- Search direction of the conjugate-gradient loop before normalization:
plain steepest descent on restart iterations (`iter % n == 0`), otherwise
the Fletcher-Reeves formula with the previous normalized direction. -/
def cg_direction {n : Nat} (f : Objective n) (grad : GradOracle n) (normF : NormFn n)
    (iter : Nat) (x x_new s_prev : Vec n) : Vec n :=
  if iter % n = 0 then -(grad f x_new)
  else -(grad f x_new) + (normF (grad f x_new) ^ 2 / normF (grad f x) ^ 2) • s_prev

/-- Loop body of `conjugate_gradient`. -/
def cg_body {n : Nat} (f : Objective n) (grad : GradOracle n) (normF : NormFn n)
    (ls : LineSearch) (iter : Nat) (st : CGState n) : CGState n :=
  let s0 := cg_direction f grad normF iter st.x st.x_new st.s
  let s : Vec n := fun i => s0 i / normF s0
  let alpha := ls fun a => f (st.x_new + a • s)
  ⟨st.x_new, st.x_new + alpha • s, s⟩

/-- Convergence check of `conjugate_gradient` on the post-pass state. -/
def cg_check {n : Nat} (f : Objective n) (grad : GradOracle n) (normF : NormFn n)
    (max_iter : Nat) (grad_tol delta_x_tol delta_f_tol : ℚ)
    (iter : Nat) (st : CGState n) : Option Nat :=
  convCheck max_iter iter (normF (grad f st.x_new)) (normF (st.x_new - st.x))
    |f st.x_new - f st.x| grad_tol delta_x_tol delta_f_tol

/-- Initial pre-loop step of `conjugate_gradient`: one normalized
steepest-descent step from `x` taken before the loop starts. -/
def cg_init {n : Nat} (f : Objective n) (grad : GradOracle n) (normF : NormFn n)
    (ls : LineSearch) (x : Vec n) : CGState n :=
  let s0 := -(grad f x)
  let s : Vec n := fun i => s0 i / normF s0
  let alpha := ls fun a => f (x + a • s)
  ⟨x, x + alpha • s, s⟩

/-- Embedding of `conjugate_gradient(...)` with full output. -/
def conjugate_gradient {n : Nat} (f : Objective n) (x : Vec n) (grad : GradOracle n)
    (normF : NormFn n) (ls : LineSearch)
    (grad_tol delta_f_tol delta_x_tol : ℚ) (max_iter : Nat) : SolveResult n :=
  let r := runLoop (cg_body f grad normF ls)
    (cg_check f grad normF max_iter grad_tol delta_x_tol delta_f_tol) (max_iter + 1) 0
    (cg_init f grad normF ls x)
  ⟨r.st.x_new, f r.st.x_new, r.flag, r.iters⟩

/-- Loop-carried state of `quasi_newton`: Hessian approximation `B`,
previous point `x`, current point `x_new`. -/
structure QNState (n : Nat) where
  B : Mat n
  x : Vec n
  x_new : Vec n

/-- Identity matrix `np.eye(n)`, the initial Hessian approximation. -/
def eye (n : Nat) : Mat n := fun i j => if i = j then 1 else 0

/-- Loop body of `quasi_newton`: direction `s = -B @ delta_f(f, x)`
(normalized), bounded line search, then the unconditional Hessian update
`B + update_rule(B, x_new - x, delta_f(f,x_new) - delta_f(f,x))`.  The
source performs the update with no guard (numpy float division), so the
pluggable `update_rule` here is a total function on `ℚ`; the source also
performs it even on the final pass, after the convergence check has fired,
where its value is unused — identically unused here since the check reads
only `x`, `x_new`, `f` and the gradient. -/
def qn_body {n : Nat} (f : Objective n) (grad : GradOracle n) (normF : NormFn n)
    (ls : LineSearch) (update_rule : Mat n → Vec n → Vec n → Mat n)
    (_iter : Nat) (st : QNState n) : QNState n :=
  let x := st.x_new
  let s0 := -(matVec st.B (grad f x))
  let s : Vec n := fun i => s0 i / normF s0
  let alpha := ls fun a => f (x + a • s)
  let x_new := x + alpha • s
  let B2 : Mat n := fun i j =>
    st.B i j + update_rule st.B (x_new - x) (grad f x_new - grad f x) i j
  ⟨B2, x, x_new⟩

/-- Convergence check of `quasi_newton` on the post-pass state. -/
def qn_check {n : Nat} (f : Objective n) (grad : GradOracle n) (normF : NormFn n)
    (max_iter : Nat) (grad_tol delta_x_tol delta_f_tol : ℚ)
    (iter : Nat) (st : QNState n) : Option Nat :=
  convCheck max_iter iter (normF (grad f st.x_new)) (normF (st.x_new - st.x))
    |f st.x_new - f st.x| grad_tol delta_x_tol delta_f_tol

/-- Embedding of `quasi_newton(f, x, delta_f, grad_tol, delta_f_tol,
delta_x_tol, max_iter, update_rule)` with full output; the source default
for `update_rule` is the BFGS rule. -/
def quasi_newton {n : Nat} (f : Objective n) (x : Vec n) (grad : GradOracle n)
    (normF : NormFn n) (ls : LineSearch)
    (grad_tol delta_f_tol delta_x_tol : ℚ) (max_iter : Nat)
    (update_rule : Mat n → Vec n → Vec n → Mat n) : SolveResult n :=
  let r := runLoop (qn_body f grad normF ls update_rule)
    (qn_check f grad normF max_iter grad_tol delta_x_tol delta_f_tol) (max_iter + 1) 0
    ⟨eye n, x, x⟩
  ⟨r.st.x_new, f r.st.x_new, r.flag, r.iters⟩

/-- Concrete two-variable objective for witness instantiations. -/
def exF2 : Objective 2 := fun v => v 0 + v 1

/-- Concrete gradient oracle: the file's forward-difference estimator at
step 1 (exact rational arithmetic). -/
def exGrad2 : GradOracle 2 := fun fn y => forward_diff fn y 1

/-- Concrete norm primitive for two-vector witnesses. -/
def exNorm2 : NormFn 2 := fun v => |v 0| + |v 1|

/-- Concrete line-search primitive that always returns step 0. -/
def exLs : LineSearch := fun _ => 0

/-- Concrete conjugate-gradient state for the `C5` witness. -/
def exCGSt : CGState 2 := ⟨fun _ => 1, fun _ => 2, fun _ => 3⟩

/-- Default `delta_x_tol = 1e-5` of the `quasi_newton` signature, which
the augmented-Lagrangian inner call leaves untouched. -/
def quasi_newton_default_delta_x_tol : ℚ := 1 / 100000

/-- Loop-carried state of the `augmented_lagrangian` outer loop: previous
outer iterate `x_prev`, current iterate `x`, inequality multipliers `mu`,
equality multipliers `lam`, and the Lagrangian gradient `delta_L_new`
recomputed at the new multipliers during the pass that produced this
state (the source computes it into a local variable and never reads it;
it is recorded here so that theorems can speak about it). -/
structure ALState (n : Nat) where
  x_prev : Vec n
  x : Vec n
  mu : List ℚ
  lam : List ℚ
  dL : Vec n

/-- Initial outer state of `augmented_lagrangian`: both multiplier
vectors are zero vectors sized to the corresponding residual output of
`con(x)` (`mu0 = np.zeros(g.shape[0])`, `lambda_0 = np.zeros(h.shape[0])`). -/
def al_init {n : Nat} (con : Constr n) (x : Vec n) : ALState n :=
  ⟨x, x, List.replicate (con x).1.length 0, List.replicate (con x).2.length 0, 0⟩

/-- Inner solve of each outer pass, translated from the source call
`quasi_newton(lambda x: calc_augmented_lagrangian(f, con, x, lambda_0,
mu0, rho), x, delta_f, delta_f_tol, delta_x_tol, max_iter=100)`: the
caller's `delta_f_tol` lands positionally in the `grad_tol` slot and the
caller's `delta_x_tol` in the `delta_f_tol` slot; the inner `delta_x_tol`
stays at its signature default, the budget is the literal 100, and the
update rule is the `BFGS_update` default. -/
def al_inner {n : Nat} (f : Objective n) (con : Constr n) (grad : GradOracle n)
    (normF : NormFn n) (ls : LineSearch) (rho delta_f_tol delta_x_tol : ℚ)
    (mu lam : List ℚ) (x : Vec n) : Vec n :=
  (quasi_newton (fun y => calc_augmented_lagrangian f con y lam mu rho) x grad normF ls
    delta_f_tol delta_x_tol quasi_newton_default_delta_x_tol 100 BFGS_update_total).x

/-- Loop body of the `augmented_lagrangian` outer loop: inner solve for
`x_new`, multiplier updates `mu_new = mu0 + rho*g` with negative entries
clamped to zero and `lambda_new = lambda_0 + rho*h` (no sign
restriction), then the recomputation of the Lagrangian gradient at the
new multipliers. -/
def al_body {n : Nat} (f : Objective n) (con : Constr n) (grad : GradOracle n)
    (normF : NormFn n) (ls : LineSearch) (rho delta_f_tol delta_x_tol : ℚ)
    (_iter : Nat) (st : ALState n) : ALState n :=
  let x_new := al_inner f con grad normF ls rho delta_f_tol delta_x_tol st.mu st.lam st.x
  let gh := con x_new
  let mu_new := (List.zipWith (fun m gi => m + rho * gi) st.mu gh.1).map
    fun v => if v < 0 then 0 else v
  let lambda_new := List.zipWith (fun l hi => l + rho * hi) st.lam gh.2
  let dL := grad (fun y => calc_lagrangian f con y lambda_new mu_new) x_new
  ⟨st.x, x_new, mu_new, lambda_new, dL⟩

/-- Outer convergence check of `augmented_lagrangian`: the shared
four-way priority chain, evaluated against the original objective `f` —
its gradient at `x_new`, the outer step norm, and the outer objective
delta — and not against the recomputed `delta_L_new`. -/
def al_check {n : Nat} (f : Objective n) (grad : GradOracle n) (normF : NormFn n)
    (max_iter : Nat) (grad_tol delta_x_tol delta_f_tol : ℚ)
    (iter : Nat) (st : ALState n) : Option Nat :=
  convCheck max_iter iter (normF (grad f st.x)) (normF (st.x - st.x_prev))
    |f st.x - f st.x_prev| grad_tol delta_x_tol delta_f_tol

/-- Outer loop run of `augmented_lagrangian`, exposing the state trace. -/
def al_run {n : Nat} (f : Objective n) (con : Constr n) (grad : GradOracle n)
    (normF : NormFn n) (ls : LineSearch) (rho grad_tol delta_f_tol delta_x_tol : ℚ)
    (max_iter : Nat) (x : Vec n) : RunOut (ALState n) :=
  runLoop (al_body f con grad normF ls rho delta_f_tol delta_x_tol)
    (al_check f grad normF max_iter grad_tol delta_x_tol delta_f_tol)
    (max_iter + 1) 0 (al_init con x)

/-- Embedding of `augmented_lagrangian(f, con, x, delta_f, rho, grad_tol,
delta_f_tol, delta_x_tol, max_iter)` with full output. -/
def augmented_lagrangian {n : Nat} (f : Objective n) (con : Constr n)
    (grad : GradOracle n) (normF : NormFn n) (ls : LineSearch)
    (rho grad_tol delta_f_tol delta_x_tol : ℚ) (max_iter : Nat) (x : Vec n) :
    SolveResult n :=
  let r := al_run f con grad normF ls rho grad_tol delta_f_tol delta_x_tol max_iter x
  ⟨r.st.x, f r.st.x, r.flag, r.iters⟩

/-- Concrete constant-zero objective of the one-variable system used to
show that the outer convergence check reads the objective gradient and
not the recomputed Lagrangian gradient. -/
def alF : Objective 1 := fun _ => 0

/-- Concrete constraint function with one equality residual `h = [x]`
and no inequality residuals. -/
def alCon : Constr 1 := fun y => ([], [y 0])

/-- Concrete constraint function with one inequality residual `g = [x]`
and no equality residuals. -/
def exConW : Constr 1 := fun y => ([y 0], [])

/-- Concrete gradient oracle on one variable: the file's
forward-difference estimator at step 1 (exact rational arithmetic). -/
def alGrad : GradOracle 1 := fun fn y => forward_diff fn y 1

/-- Concrete norm primitive on one-vectors: the absolute value, which on
one-dimensional vectors coincides exactly with the Euclidean norm. -/
def alNorm : NormFn 1 := fun v => |v 0|

/-- Concrete starting point `x = (1)`. -/
def alX : Vec 1 := fun _ => 1

theorem foldl_add_eq_sum (g : ℚ → ℚ) :
    ∀ (l : List ℚ) (c : ℚ), l.foldl (fun acc a => acc + g a) c = c + (l.map g).sum := by
  intro l
  induction l with
  | nil => simp
  | cons a t ih => intro c; simp [ih, add_assoc]

theorem length_bind_pair {α β : Type} (F G : α → β) :
    ∀ l : List α, (l.flatMap fun i => [F i, G i]).length = 2 * l.length := by
  intro l
  induction l with
  | nil => simp
  | cons a t ih => simp [List.flatMap_cons, ih]; ring

theorem quadForm_eq_vecMat {n : Nat} (B : Mat n) (v : Vec n) :
    dotV (vecMat v B) v = quadForm B v := by
  simp only [dotV, vecMat, quadForm, Finset.sum_mul, Finset.mul_sum, mul_assoc]
  exact Finset.sum_comm

/-- C4: for every objective `f`, constraint function `con`, vector `x` and
penalty `p`, the penalty transform returns a surrogate with
`f_pen(x) = f(x) + p * (Σ max(0, g_i)² + Σ h_j²)`, with default `p = 100`,
correct also when either residual sequence is empty (the statement is
universally quantified over `con`, hence over empty residual lists). -/
theorem C4_penalty_transform {n : Nat} (f : Objective n) (con : Constr n)
    (x0 : Vec n) (p : ℚ) (x : Vec n) :
    constrained_to_unconstrained f con x0 p x
      = f x + p * (((con x).1.map fun gi => (max 0 gi) ^ 2).sum
                   + ((con x).2.map fun hi => hi ^ 2).sum)
      ∧ constrained_to_unconstrained_default_p = 100 := by
  constructor
  · simp [constrained_to_unconstrained, penalty_sum, foldl_add_eq_sum]
  · rfl

/-- C6: with nonzero curvature denominator `delta_x·delta_g` (and, for
DFP, nonzero `delta_g·B·delta_g`), `BFGS_update` and `DFP_update` return
exactly the §4.4 increment formulas; neither guards its denominators, so
on inputs with `delta_x·delta_g = 0` the division-by-zero branch (`none`)
of the embedding is reached. -/
theorem C6_hessian_updates {n : Nat} (B : Mat n) (delta_x delta_g : Vec n)
    (h1 : dotV delta_x delta_g ≠ 0) (h2 : quadForm B delta_g ≠ 0) :
    (BFGS_update B delta_x delta_g = some (fun i j =>
        (1 + quadForm B delta_g / dotV delta_g delta_x) * (delta_x i * delta_x j)
            / dotV delta_x delta_g
          - (delta_x i * vecMat delta_g B j + vecMat delta_g B i * delta_x j)
            / dotV delta_x delta_g)
      ∧ DFP_update B delta_x delta_g = some (fun i j =>
          delta_x i * delta_x j / dotV delta_x delta_g
            - matVec B delta_g i * matVec B delta_g j / quadForm B delta_g))
    ∧ (∀ (B2 : Mat n) (dx2 dg2 : Vec n), dotV dx2 dg2 = 0 →
        BFGS_update B2 dx2 dg2 = none ∧ DFP_update B2 dx2 dg2 = none) := by
  refine ⟨⟨?_, ?_⟩, ?_⟩
  · rw [BFGS_update, if_neg h1]
    congr 1
    funext i j
    simp only [BFGS_update_total, quadForm_eq_vecMat]
  · rw [DFP_update, if_neg h1, if_neg (by rw [quadForm_eq_vecMat]; exact h2)]
    congr 1
    funext i j
    simp only [DFP_update_total, quadForm_eq_vecMat]
  · intro B2 dx2 dg2 hz
    exact ⟨by rw [BFGS_update, if_pos hz], by rw [DFP_update, if_pos hz]⟩

/-- Witness for `C6_hessian_updates` at `B = [[2]]`, `delta_x = [1]`,
`delta_g = [3]` (curvature `3 ≠ 0`, `delta_g·B·delta_g = 18 ≠ 0`), and at
`delta_g = [0]` for the reachable division-by-zero branch. -/
theorem C6_witness :
    (BFGS_update exB exDx exDg = some (fun i j =>
        (1 + quadForm exB exDg / dotV exDg exDx) * (exDx i * exDx j)
            / dotV exDx exDg
          - (exDx i * vecMat exDg exB j + vecMat exDg exB i * exDx j)
            / dotV exDx exDg)
      ∧ DFP_update exB exDx exDg = some (fun i j =>
          exDx i * exDx j / dotV exDx exDg
            - matVec exB exDg i * matVec exB exDg j / quadForm exB exDg))
    ∧ (BFGS_update exB exDx exDgZ = none ∧ DFP_update exB exDx exDgZ = none) :=
  ⟨(C6_hessian_updates exB exDx exDg
      (by norm_num [dotV, exDx, exDg, Fin.sum_univ_one])
      (by norm_num [quadForm, exB, exDg, Fin.sum_univ_one])).1,
   (C6_hessian_updates exB exDx exDg
      (by norm_num [dotV, exDx, exDg, Fin.sum_univ_one])
      (by norm_num [quadForm, exB, exDg, Fin.sum_univ_one])).2 exB exDx exDgZ
      (by norm_num [dotV, exDx, exDgZ, Fin.sum_univ_one])⟩

/-- C7 counterexample: the claim that a single gradient computation
evaluates `f` exactly `n + 1` times fails at `n = 2`: the source
re-evaluates the baseline `f(x)` inside the loop, so `f` is evaluated
`2n = 4` times, not `n + 1 = 3`. -/
theorem C7_counterexample : ¬ ((forward_diff_evalArgs exX2 1).length = 2 + 1) := by
  decide

/-- C7 amended: the forward-difference estimator returns the vector whose
`i`-th entry is `(f(x + h·e_i) - f(x)) / h`, but a single gradient
computation evaluates `f` exactly `2n` times (one perturbed and one
baseline evaluation per dimension; the baseline is recomputed on every
pass rather than reused). -/
theorem C7_forward_diff_amended {n : Nat} (f : Objective n) (x : Vec n) (h : ℚ) :
    (∀ i, forward_diff f x h i = (f (x + Pi.single i h) - f x) / h)
    ∧ (forward_diff_evalArgs x h).length = 2 * n := by
  constructor
  · intro i
    have hupd : Function.update x i (x i + h) = x + Pi.single i h := by
      funext j
      by_cases hji : j = i
      · subst hji; simp
      · simp [Function.update_noteq hji, Pi.single_eq_of_ne hji]
    rw [forward_diff, hupd]
  · rw [forward_diff_evalArgs, length_bind_pair (fun i => Function.update x i (x i + h)) (fun _ => x)]
    simp

/-- C9: for every vector `x` and componentwise-nonzero reference `ref`,
`descale(scale(x, ref), ref) = x`: descaling is the exact round-trip
inverse of scaling. -/
theorem C9_scale_roundtrip {n : Nat} (x ref : Vec n) (h : ∀ i, ref i ≠ 0) :
    descale (scale x ref) ref = x := by
  funext i
  exact div_mul_cancel₀ (x i) (h i)

/-- Witness for `C9_scale_roundtrip` at `x = (3, 4)`, `ref = (2, 5)`. -/
theorem C9_witness : descale (scale exX9 exRef9) exRef9 = exX9 :=
  C9_scale_roundtrip exX9 exRef9 (by intro i; fin_cases i <;> norm_num [exRef9])

theorem runLoop_succ {σ : Type} (body : Nat → σ → σ) (check : Nat → σ → Option Nat)
    (fuel iter : Nat) (st : σ) :
    runLoop body check (fuel + 1) iter st =
      match check (iter + 1) (body iter st) with
      | some fl => ⟨body iter st, fl, iter + 1, [body iter st]⟩
      | none =>
        let r := runLoop body check fuel (iter + 1) (body iter st)
        ⟨r.st, r.flag, r.iters, body iter st :: r.trace⟩ := rfl

theorem runLoop_flag_le {σ : Type} (body : Nat → σ → σ) (check : Nat → σ → Option Nat)
    (mi : Nat) (hbudget : ∀ it s, mi ≤ it → (check it s).isSome)
    (hrange : ∀ it s fl, check it s = some fl → fl ≤ 3) :
    ∀ fuel iter st, mi ≤ iter + fuel → (runLoop body check (fuel + 1) iter st).flag ≤ 3 := by
  intro fuel
  induction fuel with
  | zero =>
    intro iter st hle
    rw [runLoop_succ]
    cases hchk : check (iter + 1) (body iter st) with
    | some fl => simp [hchk]; exact hrange _ _ _ hchk
    | none =>
      have hs := hbudget (iter + 1) (body iter st) (by omega)
      rw [hchk] at hs
      simp at hs
  | succ fuel ih =>
    intro iter st hle
    rw [runLoop_succ]
    cases hchk : check (iter + 1) (body iter st) with
    | some fl => simp [hchk]; exact hrange _ _ _ hchk
    | none =>
      simp [hchk]
      exact ih (iter + 1) (body iter st) (by omega)

theorem runLoop_budget {σ : Type} (body : Nat → σ → σ) (check : Nat → σ → Option Nat)
    (mi : Nat) (st0 : σ)
    (hnone : ∀ it, 0 < it → it < mi → check it (stateAt body it st0) = none)
    (hzero : check mi (stateAt body mi st0) = some 0) :
    ∀ fuel iter, iter + fuel + 1 = mi →
      (runLoop body check (fuel + 2) iter (stateAt body iter st0)).st = stateAt body mi st0
      ∧ (runLoop body check (fuel + 2) iter (stateAt body iter st0)).flag = 0
      ∧ (runLoop body check (fuel + 2) iter (stateAt body iter st0)).iters = mi := by
  intro fuel
  induction fuel with
  | zero =>
    intro iter hit
    have h1 : iter + 1 = mi := by omega
    rw [runLoop_succ]
    have hb : body iter (stateAt body iter st0) = stateAt body (iter + 1) st0 := rfl
    rw [hb, h1, hzero]
    simp [h1]
  | succ fuel ih =>
    intro iter hit
    rw [runLoop_succ]
    have hb : body iter (stateAt body iter st0) = stateAt body (iter + 1) st0 := rfl
    rw [hb, hnone (iter + 1) (by omega) (by omega)]
    simpa using ih (iter + 1) (by omega)

theorem runLoop_budget_run {σ : Type} (body : Nat → σ → σ) (check : Nat → σ → Option Nat)
    (mi : Nat) (st0 : σ) (hmi : 1 ≤ mi)
    (hnone : ∀ it, 0 < it → it < mi → check it (stateAt body it st0) = none)
    (hzero : check mi (stateAt body mi st0) = some 0) :
    (runLoop body check (mi + 1) 0 st0).st = stateAt body mi st0
    ∧ (runLoop body check (mi + 1) 0 st0).flag = 0
    ∧ (runLoop body check (mi + 1) 0 st0).iters = mi := by
  obtain ⟨m, rfl⟩ : ∃ m, mi = m + 1 := ⟨mi - 1, by omega⟩
  have h := runLoop_budget body check (m + 1) st0 hnone hzero m 0 (by omega)
  simpa using h

theorem runLoop_trace_pred {σ : Type} (body : Nat → σ → σ) (check : Nat → σ → Option Nat)
    (P : σ → Prop) (hP : ∀ it s, P (body it s)) :
    ∀ fuel iter st, ∀ s2 ∈ (runLoop body check fuel iter st).trace, P s2 := by
  intro fuel
  induction fuel with
  | zero => intro iter st s2 hs2; simp [runLoop] at hs2
  | succ fuel ih =>
    intro iter st s2 hs2
    rw [runLoop_succ] at hs2
    cases hchk : check (iter + 1) (body iter st) with
    | some fl =>
      rw [hchk] at hs2
      simp at hs2
      subst hs2
      exact hP _ _
    | none =>
      rw [hchk] at hs2
      simp at hs2
      rcases hs2 with h | h
      · subst h; exact hP _ _
      · exact ih _ _ _ h

theorem runLoop_trace_head {σ : Type} (body : Nat → σ → σ) (check : Nat → σ → Option Nat)
    (fuel iter : Nat) (st : σ) :
    (runLoop body check (fuel + 1) iter st).trace.head? = some (body iter st) := by
  rw [runLoop_succ]
  cases hchk : check (iter + 1) (body iter st) <;> simp [hchk]

theorem convCheck_flag_le (mi it : Nat) (g s fd gt dxt dft : ℚ) (fl : Nat)
    (h : convCheck mi it g s fd gt dxt dft = some fl) : fl ≤ 3 := by
  unfold convCheck at h
  split_ifs at h <;> simp_all <;> omega

theorem convCheck_isSome_of_budget (mi it : Nat) (g s fd gt dxt dft : ℚ) (h : mi ≤ it) :
    (convCheck mi it g s fd gt dxt dft).isSome := by
  unfold convCheck
  rw [if_pos h]
  rfl

theorem convCheck_eq_zero_iff (mi it : Nat) (g s fd gt dxt dft : ℚ) :
    convCheck mi it g s fd gt dxt dft = some 0 ↔ mi ≤ it := by
  unfold convCheck
  split_ifs with h1 h2 h3 h4 <;> simp <;> omega

theorem convCheck_eq_one_iff (mi it : Nat) (g s fd gt dxt dft : ℚ) :
    convCheck mi it g s fd gt dxt dft = some 1 ↔ it < mi ∧ g ≤ gt := by
  unfold convCheck
  split_ifs with h1 h2 h3 h4
  · simp only [Option.some.injEq]
    constructor
    · intro h; omega
    · rintro ⟨hlt, -⟩; omega
  · simp only [Option.some.injEq]
    constructor
    · intro _; exact ⟨by omega, h2⟩
    · intro _; trivial
  · simp only [Option.some.injEq]
    constructor
    · intro h; omega
    · rintro ⟨-, hg⟩; exact absurd hg h2
  · simp only [Option.some.injEq]
    constructor
    · intro h; omega
    · rintro ⟨-, hg⟩; exact absurd hg h2
  · constructor
    · intro h; simp at h
    · rintro ⟨-, hg⟩; exact absurd hg h2

theorem convCheck_eq_two_iff (mi it : Nat) (g s fd gt dxt dft : ℚ) :
    convCheck mi it g s fd gt dxt dft = some 2 ↔ it < mi ∧ ¬ g ≤ gt ∧ s ≤ dxt := by
  unfold convCheck
  split_ifs with h1 h2 h3 h4
  · simp only [Option.some.injEq]
    constructor
    · intro h; omega
    · rintro ⟨hlt, -, -⟩; omega
  · simp only [Option.some.injEq]
    constructor
    · intro h; omega
    · rintro ⟨-, hg, -⟩; exact absurd h2 hg
  · simp only [Option.some.injEq]
    constructor
    · intro _; exact ⟨by omega, h2, h3⟩
    · intro _; trivial
  · simp only [Option.some.injEq]
    constructor
    · intro h; omega
    · rintro ⟨-, -, hs⟩; exact absurd hs h3
  · constructor
    · intro h; simp at h
    · rintro ⟨-, -, hs⟩; exact absurd hs h3

theorem convCheck_eq_three_iff (mi it : Nat) (g s fd gt dxt dft : ℚ) :
    convCheck mi it g s fd gt dxt dft = some 3 ↔
      it < mi ∧ ¬ g ≤ gt ∧ ¬ s ≤ dxt ∧ fd ≤ dft := by
  unfold convCheck
  split_ifs with h1 h2 h3 h4
  · simp only [Option.some.injEq]
    constructor
    · intro h; omega
    · rintro ⟨hlt, -, -, -⟩; omega
  · simp only [Option.some.injEq]
    constructor
    · intro h; omega
    · rintro ⟨-, hg, -, -⟩; exact absurd h2 hg
  · simp only [Option.some.injEq]
    constructor
    · intro h; omega
    · rintro ⟨-, -, hs, -⟩; exact absurd h3 hs
  · simp only [Option.some.injEq]
    constructor
    · intro _; exact ⟨by omega, h2, h3, h4⟩
    · intro _; trivial
  · constructor
    · intro h; simp at h
    · rintro ⟨-, -, -, hf⟩; exact absurd hf h4

theorem convCheck_priority_one (mi it : Nat) (g s fd gt dxt dft : ℚ)
    (h1 : it < mi) (h2 : g ≤ gt) : convCheck mi it g s fd gt dxt dft = some 1 := by
  unfold convCheck
  rw [if_neg (by omega), if_pos h2]

theorem convCheck_eq_none (mi it : Nat) (g s fd gt dxt dft : ℚ)
    (h1 : it < mi) (h2 : ¬ g ≤ gt) (h3 : ¬ s ≤ dxt) (h4 : ¬ fd ≤ dft) :
    convCheck mi it g s fd gt dxt dft = none := by
  unfold convCheck
  rw [if_neg (by omega), if_neg h2, if_neg h3, if_neg h4]

theorem convCheck_budget_zero (mi it : Nat) (g s fd gt dxt dft : ℚ) (h : mi ≤ it) :
    convCheck mi it g s fd gt dxt dft = some 0 := by
  unfold convCheck
  rw [if_pos h]

/-- C1: every call to `steepest_descent`, `conjugate_gradient` or
`quasi_newton` produces exactly one exit flag, and it lies in {0,1,2,3};
the shared check `convCheck` used by all three loops evaluates the
terminal conditions in the fixed priority order — budget (0), gradient
norm (1), step norm (2), objective delta (3) — only the first satisfied
condition setting the flag; in particular, below the budget, when the
gradient-norm and step-norm tolerances hold simultaneously the flag is 1,
never 2. -/
theorem C1_exit_flag_priority {n : Nat} (f : Objective n) (x : Vec n)
    (grad : GradOracle n) (normF : NormFn n) (ls : LineSearch)
    (grad_tol delta_f_tol delta_x_tol : ℚ) (max_iter : Nat)
    (update_rule : Mat n → Vec n → Vec n → Mat n) :
    (let fl := (steepest_descent f x grad normF ls grad_tol delta_f_tol delta_x_tol max_iter).flag
     fl = 0 ∨ fl = 1 ∨ fl = 2 ∨ fl = 3)
    ∧ (let fl := (conjugate_gradient f x grad normF ls grad_tol delta_f_tol delta_x_tol max_iter).flag
       fl = 0 ∨ fl = 1 ∨ fl = 2 ∨ fl = 3)
    ∧ (let fl := (quasi_newton f x grad normF ls grad_tol delta_f_tol delta_x_tol max_iter update_rule).flag
       fl = 0 ∨ fl = 1 ∨ fl = 2 ∨ fl = 3)
    ∧ (∀ (mi it : Nat) (g s fd gt dxt dft : ℚ),
        (convCheck mi it g s fd gt dxt dft = some 0 ↔ mi ≤ it)
        ∧ (convCheck mi it g s fd gt dxt dft = some 1 ↔ it < mi ∧ g ≤ gt)
        ∧ (convCheck mi it g s fd gt dxt dft = some 2 ↔ it < mi ∧ ¬ g ≤ gt ∧ s ≤ dxt)
        ∧ (convCheck mi it g s fd gt dxt dft = some 3 ↔
            it < mi ∧ ¬ g ≤ gt ∧ ¬ s ≤ dxt ∧ fd ≤ dft))
    ∧ (∀ (mi it : Nat) (g s fd gt dxt dft : ℚ),
        it < mi → g ≤ gt → s ≤ dxt → convCheck mi it g s fd gt dxt dft = some 1) := by
  refine ⟨?_, ?_, ?_, ?_, ?_⟩
  · have h := runLoop_flag_le (sd_body f grad normF ls)
      (sd_check f grad normF max_iter grad_tol delta_x_tol delta_f_tol) max_iter
      (fun it s hle => convCheck_isSome_of_budget _ _ _ _ _ _ _ _ hle)
      (fun it s fl hc => convCheck_flag_le _ _ _ _ _ _ _ _ _ hc)
      max_iter 0 (x, x) (by omega)
    simp only [steepest_descent]
    omega
  · have h := runLoop_flag_le (cg_body f grad normF ls)
      (cg_check f grad normF max_iter grad_tol delta_x_tol delta_f_tol) max_iter
      (fun it s hle => convCheck_isSome_of_budget _ _ _ _ _ _ _ _ hle)
      (fun it s fl hc => convCheck_flag_le _ _ _ _ _ _ _ _ _ hc)
      max_iter 0 (cg_init f grad normF ls x) (by omega)
    simp only [conjugate_gradient]
    omega
  · have h := runLoop_flag_le (qn_body f grad normF ls update_rule)
      (qn_check f grad normF max_iter grad_tol delta_x_tol delta_f_tol) max_iter
      (fun it s hle => convCheck_isSome_of_budget _ _ _ _ _ _ _ _ hle)
      (fun it s fl hc => convCheck_flag_le _ _ _ _ _ _ _ _ _ hc)
      max_iter 0 ⟨eye n, x, x⟩ (by omega)
    simp only [quasi_newton]
    omega
  · intro mi it g s fd gt dxt dft
    exact ⟨convCheck_eq_zero_iff mi it g s fd gt dxt dft,
           convCheck_eq_one_iff mi it g s fd gt dxt dft,
           convCheck_eq_two_iff mi it g s fd gt dxt dft,
           convCheck_eq_three_iff mi it g s fd gt dxt dft⟩
  · intro mi it g s fd gt dxt dft h1 h2 _
    exact convCheck_priority_one mi it g s fd gt dxt dft h1 h2

/-- Witness for `C1_exit_flag_priority`: at iteration 2 of budget 5 with
both the gradient-norm and step-norm tolerances satisfied, the shared
check returns flag 1 (never 2). -/
theorem C1_witness : convCheck 5 2 0 0 0 1 1 1 = some 1 :=
  (C1_exit_flag_priority exF2 exX2 exGrad2 exNorm2 exLs 1 1 1 5
    BFGS_update_total).2.2.2.2 5 2 0 0 0 1 1 1 (by omega) (by norm_num) (by norm_num)

/-- C5: in every loop pass of `conjugate_gradient`, the search direction
before normalization is the plain steepest-descent direction
`-delta_f(f, x_new)` whenever `iter % n == 0`, and otherwise the
Fletcher-Reeves direction
`-delta_f(f, x_new) + (‖delta_f(f,x_new)‖² / ‖delta_f(f,x)‖²) · s_prev`
with `s_prev` the previous normalized direction; the loop body uses
exactly this direction, normalizes it, and carries the normalized
direction to the next pass. -/
theorem C5_cg_direction {n : Nat} (f : Objective n) (grad : GradOracle n)
    (normF : NormFn n) (ls : LineSearch) (iter : Nat) (st : CGState n) :
    (iter % n = 0 →
      cg_direction f grad normF iter st.x st.x_new st.s = -(grad f st.x_new))
    ∧ (iter % n ≠ 0 →
      cg_direction f grad normF iter st.x st.x_new st.s
        = -(grad f st.x_new)
          + (normF (grad f st.x_new) ^ 2 / normF (grad f st.x) ^ 2) • st.s)
    ∧ cg_body f grad normF ls iter st =
        (let s0 := cg_direction f grad normF iter st.x st.x_new st.s
         let s : Vec n := fun i => s0 i / normF s0
         ⟨st.x_new, st.x_new + (ls fun a => f (st.x_new + a • s)) • s, s⟩) :=
  ⟨fun h => by rw [cg_direction, if_pos h],
   fun h => by rw [cg_direction, if_neg h],
   rfl⟩

/-- Witness for `C5_cg_direction` at `n = 2`: pass 2 restarts to steepest
descent (`2 % 2 = 0`), pass 1 uses the Fletcher-Reeves formula. -/
theorem C5_witness :
    cg_direction exF2 exGrad2 exNorm2 2 exCGSt.x exCGSt.x_new exCGSt.s
      = -(exGrad2 exF2 exCGSt.x_new)
    ∧ cg_direction exF2 exGrad2 exNorm2 1 exCGSt.x exCGSt.x_new exCGSt.s
      = -(exGrad2 exF2 exCGSt.x_new)
        + (exNorm2 (exGrad2 exF2 exCGSt.x_new) ^ 2
            / exNorm2 (exGrad2 exF2 exCGSt.x) ^ 2) • exCGSt.s :=
  ⟨(C5_cg_direction exF2 exGrad2 exNorm2 exLs 2 exCGSt).1 (by omega),
   (C5_cg_direction exF2 exGrad2 exNorm2 exLs 1 exCGSt).2.1 (by omega)⟩

theorem clamp_zipWith (rho : ℚ) (mu g : List ℚ) :
    (List.zipWith (fun m gi => m + rho * gi) mu g).map (fun v => if v < 0 then 0 else v)
      = List.zipWith (fun m gi => max 0 (m + rho * gi)) mu g := by
  rw [List.map_zipWith]
  congr 1
  funext m gi
  by_cases hv : m + rho * gi < 0
  · rw [if_pos hv, max_eq_left (le_of_lt hv)]
  · rw [if_neg hv, max_eq_right (le_of_not_lt hv)]

theorem clamp_mem_nonneg (l : List ℚ) :
    ∀ v ∈ l.map (fun v => if v < 0 then 0 else v), 0 ≤ v := by
  intro v hv
  obtain ⟨u, -, rfl⟩ := List.mem_map.mp hv
  by_cases h : u < 0
  · simp [h]
  · simp only [if_neg h]
    exact le_of_not_lt h

theorem qn_body_exLs {n : Nat} (f : Objective n) (grad : GradOracle n) (normF : NormFn n)
    (ur : Mat n → Vec n → Vec n → Mat n) (it : Nat) (st : QNState n) :
    (qn_body f grad normF exLs ur it st).x = st.x_new
    ∧ (qn_body f grad normF exLs ur it st).x_new = st.x_new := by
  constructor
  · rfl
  · show st.x_new + exLs _ • _ = st.x_new
    simp [exLs]

theorem quasi_newton_exLs_first {n : Nat} (f : Objective n) (x : Vec n)
    (grad : GradOracle n) (normF : NormFn n) (gt dft dxt : ℚ) (mi : Nat)
    (ur : Mat n → Vec n → Vec n → Mat n)
    (h1 : 1 < mi) (h2 : normF (grad f x) ≤ gt) :
    (quasi_newton f x grad normF exLs gt dft dxt mi ur).x = x := by
  simp only [quasi_newton]
  rw [runLoop_succ]
  have hxn := (qn_body_exLs f grad normF ur 0 ⟨eye n, x, x⟩).2
  have hchk : qn_check f grad normF mi gt dxt dft 1
      (qn_body f grad normF exLs ur 0 ⟨eye n, x, x⟩) = some 1 := by
    show convCheck mi 1
        (normF (grad f (qn_body f grad normF exLs ur 0 ⟨eye n, x, x⟩).x_new)) _ _ _ _ _ = some 1
    rw [hxn]
    exact convCheck_priority_one _ _ _ _ _ _ _ _ (by omega) h2
  rw [hchk]
  exact hxn

theorem al_run_first_flag {n : Nat} (f : Objective n) (con : Constr n)
    (grad : GradOracle n) (normF : NormFn n) (ls : LineSearch)
    (rho grad_tol delta_f_tol delta_x_tol : ℚ) (max_iter : Nat) (x : Vec n)
    (h1 : 1 < max_iter)
    (h2 : normF (grad f
        (al_body f con grad normF ls rho delta_f_tol delta_x_tol 0 (al_init con x)).x)
      ≤ grad_tol) :
    al_run f con grad normF ls rho grad_tol delta_f_tol delta_x_tol max_iter x
      = ⟨al_body f con grad normF ls rho delta_f_tol delta_x_tol 0 (al_init con x), 1, 1,
         [al_body f con grad normF ls rho delta_f_tol delta_x_tol 0 (al_init con x)]⟩ := by
  simp only [al_run]
  rw [runLoop_succ]
  have hchk : al_check f grad normF max_iter grad_tol delta_x_tol delta_f_tol 1
      (al_body f con grad normF ls rho delta_f_tol delta_x_tol 0 (al_init con x)) = some 1 :=
    convCheck_priority_one _ _ _ _ _ _ _ _ (by omega) h2
  rw [hchk]

/-- C8: for each unconstrained solver, when no tolerance condition is met
at any iterate before the iteration budget, the call terminates normally
(no failure): the exit flag is 0, reported through the full-output return
value together with the iterate reached at the budget and its objective
value, after exactly `max_iter` iterations. -/
theorem C8_budget_exhaustion {n : Nat} (f : Objective n) (x : Vec n)
    (grad : GradOracle n) (normF : NormFn n) (ls : LineSearch)
    (update_rule : Mat n → Vec n → Vec n → Mat n)
    (grad_tol delta_f_tol delta_x_tol : ℚ) (max_iter : Nat) (hmi : 1 ≤ max_iter) :
    ((∀ it, 0 < it → it < max_iter →
        ¬ normF (grad f (stateAt (sd_body f grad normF ls) it (x, x)).2) ≤ grad_tol
        ∧ ¬ normF ((stateAt (sd_body f grad normF ls) it (x, x)).2
              - (stateAt (sd_body f grad normF ls) it (x, x)).1) ≤ delta_x_tol
        ∧ ¬ |f (stateAt (sd_body f grad normF ls) it (x, x)).2
              - f (stateAt (sd_body f grad normF ls) it (x, x)).1| ≤ delta_f_tol) →
      steepest_descent f x grad normF ls grad_tol delta_f_tol delta_x_tol max_iter
        = ⟨(stateAt (sd_body f grad normF ls) max_iter (x, x)).2,
           f (stateAt (sd_body f grad normF ls) max_iter (x, x)).2, 0, max_iter⟩)
    ∧ ((∀ it, 0 < it → it < max_iter →
        ¬ normF (grad f (stateAt (cg_body f grad normF ls) it (cg_init f grad normF ls x)).x_new) ≤ grad_tol
        ∧ ¬ normF ((stateAt (cg_body f grad normF ls) it (cg_init f grad normF ls x)).x_new
              - (stateAt (cg_body f grad normF ls) it (cg_init f grad normF ls x)).x) ≤ delta_x_tol
        ∧ ¬ |f (stateAt (cg_body f grad normF ls) it (cg_init f grad normF ls x)).x_new
              - f (stateAt (cg_body f grad normF ls) it (cg_init f grad normF ls x)).x| ≤ delta_f_tol) →
      conjugate_gradient f x grad normF ls grad_tol delta_f_tol delta_x_tol max_iter
        = ⟨(stateAt (cg_body f grad normF ls) max_iter (cg_init f grad normF ls x)).x_new,
           f (stateAt (cg_body f grad normF ls) max_iter (cg_init f grad normF ls x)).x_new,
           0, max_iter⟩)
    ∧ ((∀ it, 0 < it → it < max_iter →
        ¬ normF (grad f (stateAt (qn_body f grad normF ls update_rule) it ⟨eye n, x, x⟩).x_new) ≤ grad_tol
        ∧ ¬ normF ((stateAt (qn_body f grad normF ls update_rule) it ⟨eye n, x, x⟩).x_new
              - (stateAt (qn_body f grad normF ls update_rule) it ⟨eye n, x, x⟩).x) ≤ delta_x_tol
        ∧ ¬ |f (stateAt (qn_body f grad normF ls update_rule) it ⟨eye n, x, x⟩).x_new
              - f (stateAt (qn_body f grad normF ls update_rule) it ⟨eye n, x, x⟩).x| ≤ delta_f_tol) →
      quasi_newton f x grad normF ls grad_tol delta_f_tol delta_x_tol max_iter update_rule
        = ⟨(stateAt (qn_body f grad normF ls update_rule) max_iter ⟨eye n, x, x⟩).x_new,
           f (stateAt (qn_body f grad normF ls update_rule) max_iter ⟨eye n, x, x⟩).x_new,
           0, max_iter⟩) := by
  refine ⟨?_, ?_, ?_⟩
  · intro hno
    have hr := runLoop_budget_run (sd_body f grad normF ls)
      (sd_check f grad normF max_iter grad_tol delta_x_tol delta_f_tol)
      max_iter (x, x) hmi
      (fun it h0 hlt => convCheck_eq_none _ _ _ _ _ _ _ _ hlt (hno it h0 hlt).1
        (hno it h0 hlt).2.1 (hno it h0 hlt).2.2)
      (convCheck_budget_zero _ _ _ _ _ _ _ _ le_rfl)
    simp only [steepest_descent]
    rw [hr.1, hr.2.1, hr.2.2]
  · intro hno
    have hr := runLoop_budget_run (cg_body f grad normF ls)
      (cg_check f grad normF max_iter grad_tol delta_x_tol delta_f_tol)
      max_iter (cg_init f grad normF ls x) hmi
      (fun it h0 hlt => convCheck_eq_none _ _ _ _ _ _ _ _ hlt (hno it h0 hlt).1
        (hno it h0 hlt).2.1 (hno it h0 hlt).2.2)
      (convCheck_budget_zero _ _ _ _ _ _ _ _ le_rfl)
    simp only [conjugate_gradient]
    rw [hr.1, hr.2.1, hr.2.2]
  · intro hno
    have hr := runLoop_budget_run (qn_body f grad normF ls update_rule)
      (qn_check f grad normF max_iter grad_tol delta_x_tol delta_f_tol)
      max_iter ⟨eye n, x, x⟩ hmi
      (fun it h0 hlt => convCheck_eq_none _ _ _ _ _ _ _ _ hlt (hno it h0 hlt).1
        (hno it h0 hlt).2.1 (hno it h0 hlt).2.2)
      (convCheck_budget_zero _ _ _ _ _ _ _ _ le_rfl)
    simp only [quasi_newton]
    rw [hr.1, hr.2.1, hr.2.2]

/-- Witness for `C8_budget_exhaustion` at budget `max_iter = 1`: the
before-budget hypothesis is vacuous and the call exits with flag 0. -/
theorem C8_witness :
    (steepest_descent exF2 exX2 exGrad2 exNorm2 exLs 1 1 1 1).flag = 0 := by
  have h := (C8_budget_exhaustion exF2 exX2 exGrad2 exNorm2 exLs BFGS_update_total
    1 1 1 1 le_rfl).1 (fun it h0 h1 => absurd h0 (by omega))
  rw [h]

/-- C2: throughout every `augmented_lagrangian` run the inequality
multipliers stay componentwise nonnegative: `mu` is initialized to a zero
vector sized to the inequality-residual output of `con` at the initial
point (and `lambda` to a zero vector sized to the equality residuals);
after each outer pass `mu` equals `max(0, mu + rho*g)` componentwise (the
source clamps negative entries to zero) while `lambda` equals
`lambda + rho*h` with no sign restriction; and every state in the run
trace has componentwise nonnegative `mu`. -/
theorem C2_mu_nonneg_invariant {n : Nat} (f : Objective n) (con : Constr n)
    (grad : GradOracle n) (normF : NormFn n) (ls : LineSearch)
    (rho grad_tol delta_f_tol delta_x_tol : ℚ) (max_iter : Nat) (x : Vec n) :
    ((al_init con x).mu = List.replicate (con x).1.length 0
      ∧ (al_init con x).lam = List.replicate (con x).2.length 0
      ∧ ∀ v ∈ (al_init con x).mu, 0 ≤ v)
    ∧ (∀ (it : Nat) (st : ALState n),
        (al_body f con grad normF ls rho delta_f_tol delta_x_tol it st).mu
          = List.zipWith (fun m gi => max 0 (m + rho * gi)) st.mu
              (con (al_inner f con grad normF ls rho delta_f_tol delta_x_tol st.mu st.lam st.x)).1
        ∧ (al_body f con grad normF ls rho delta_f_tol delta_x_tol it st).lam
          = List.zipWith (fun l hi => l + rho * hi) st.lam
              (con (al_inner f con grad normF ls rho delta_f_tol delta_x_tol st.mu st.lam st.x)).2
        ∧ ∀ v ∈ (al_body f con grad normF ls rho delta_f_tol delta_x_tol it st).mu, 0 ≤ v)
    ∧ (∀ st ∈ (al_run f con grad normF ls rho grad_tol delta_f_tol delta_x_tol max_iter x).trace,
        ∀ v ∈ st.mu, 0 ≤ v) := by
  refine ⟨⟨rfl, rfl, ?_⟩, ?_, ?_⟩
  · intro v hv
    rw [List.eq_of_mem_replicate hv]
  · intro it st
    refine ⟨clamp_zipWith rho st.mu _, rfl, ?_⟩
    exact clamp_mem_nonneg _
  · exact runLoop_trace_pred (al_body f con grad normF ls rho delta_f_tol delta_x_tol)
      (al_check f grad normF max_iter grad_tol delta_x_tol delta_f_tol)
      (fun st => ∀ v ∈ st.mu, 0 ≤ v)
      (fun it st => by
        intro v hv
        simp only [al_body] at hv
        exact clamp_mem_nonneg _ v hv) (max_iter + 1) 0 (al_init con x)

/-- Witness for `C2_mu_nonneg_invariant`: a one-inequality system where
the initial multiplier vector is `[0]` and its element is nonnegative,
and the clamped update law holds at the initial state. -/
theorem C2_witness :
    (al_body alF exConW alGrad alNorm exLs 1 10 (1/100000) 0 (al_init exConW alX)).mu
      = List.zipWith (fun m gi => max 0 (m + 1 * gi)) (al_init exConW alX).mu
          (exConW (al_inner alF exConW alGrad alNorm exLs 1 10 (1/100000)
            (al_init exConW alX).mu (al_init exConW alX).lam (al_init exConW alX).x)).1
    ∧ (0 : ℚ) ≤ 0 :=
  ⟨((C2_mu_nonneg_invariant alF exConW alGrad alNorm exLs 1 1 10 (1/100000) 100 alX).2.1
      0 (al_init exConW alX)).1,
   (C2_mu_nonneg_invariant alF exConW alGrad alNorm exLs 1 1 10 (1/100000) 100 alX).1.2.2
      0 (by simp [al_init, exConW])⟩

/-- C10: every inner solve of `augmented_lagrangian` calls `quasi_newton`
with the iteration budget fixed at the literal 100, regardless of the
caller's `max_iter`; the caller's `delta_f_tol` is passed positionally
into the inner `grad_tol` slot and the caller's `delta_x_tol` into the
inner `delta_f_tol` slot; the caller's `grad_tol` is never forwarded and
the inner `delta_x_tol` keeps its signature default `1e-5`; consequently
the first outer iterate is identical for any two values of the caller's
`grad_tol` and `max_iter`. -/
theorem C10_inner_solve_wiring {n : Nat} (f : Objective n) (con : Constr n)
    (grad : GradOracle n) (normF : NormFn n) (ls : LineSearch)
    (rho delta_f_tol delta_x_tol : ℚ) (mu lam : List ℚ) (xx : Vec n)
    (grad_tol1 grad_tol2 : ℚ) (max_iter1 max_iter2 : Nat) (x : Vec n) :
    (al_inner f con grad normF ls rho delta_f_tol delta_x_tol mu lam xx
      = (quasi_newton (fun y => calc_augmented_lagrangian f con y lam mu rho) xx
          grad normF ls delta_f_tol delta_x_tol (1 / 100000) 100 BFGS_update_total).x)
    ∧ quasi_newton_default_delta_x_tol = 1 / 100000
    ∧ ((al_run f con grad normF ls rho grad_tol1 delta_f_tol delta_x_tol max_iter1 x).trace.head?).map ALState.x
      = ((al_run f con grad normF ls rho grad_tol2 delta_f_tol delta_x_tol max_iter2 x).trace.head?).map ALState.x := by
  refine ⟨rfl, rfl, ?_⟩
  simp only [al_run]
  rw [runLoop_trace_head, runLoop_trace_head]

/-- C3 counterexample: a concrete `augmented_lagrangian` run that returns
exit flag 1 after its first outer iteration although the Lagrangian
gradient recomputed at the new multipliers has norm 1, which fails the
gradient tolerance 1/2.  Under the claim — that the recomputed gradient
is the quantity used in the next outer convergence check — the
gradient-norm condition could not have fired; the check in fact evaluates
the gradient of the original objective `f` (here identically zero). -/
theorem C3_counterexample :
    (augmented_lagrangian alF alCon alGrad alNorm exLs 1 (1/2) 10 (1/100000) 100 alX).flag = 1
    ∧ ((al_run alF alCon alGrad alNorm exLs 1 (1/2) 10 (1/100000) 100 alX).trace.head?).map
        (fun st => alNorm st.dL) = some 1
    ∧ ¬ ((1 : ℚ) ≤ 1/2) := by
  have hgrad : alNorm (alGrad (fun y => calc_augmented_lagrangian alF alCon y
      (al_init alCon alX).lam (al_init alCon alX).mu 1) ((al_init alCon alX).x)) ≤ 10 := by
    norm_num [alNorm, alGrad, forward_diff, calc_augmented_lagrangian, calc_lagrangian,
      alF, alCon, alX, ldot, penalty_sum, al_init, Function.update_same]
  have hx2 : al_inner alF alCon alGrad alNorm exLs 1 10 (1/100000)
      (al_init alCon alX).mu (al_init alCon alX).lam ((al_init alCon alX).x) = alX :=
    quasi_newton_exLs_first
      (fun y => calc_augmented_lagrangian alF alCon y (al_init alCon alX).lam
        (al_init alCon alX).mu 1)
      ((al_init alCon alX).x) alGrad alNorm 10 (1/100000) quasi_newton_default_delta_x_tol
      100 BFGS_update_total (by omega) hgrad
  have hdL : alNorm ((al_body alF alCon alGrad alNorm exLs 1 10 (1/100000) 0
      (al_init alCon alX)).dL) = 1 := by
    simp only [al_body]
    rw [hx2]
    norm_num [alNorm, alGrad, forward_diff, calc_lagrangian, alF, alCon, alX, ldot,
      al_init, Function.update_same]
  have hrun := al_run_first_flag alF alCon alGrad alNorm exLs 1 (1/2) 10 (1/100000) 100 alX
    (by omega)
    (by norm_num [alGrad, forward_diff, alF, alNorm])
  refine ⟨?_, ?_, by norm_num⟩
  · simp only [augmented_lagrangian, hrun]
  · rw [hrun]
    simpa using hdL

/-- C3 amended: in every outer iteration of `augmented_lagrangian` the
Lagrangian gradient is recomputed at the new multipliers, but the
recomputed gradient is left unused; the next outer convergence check
evaluates the gradient of the original objective `f` at `x_new`, so that
whenever that gradient meets `grad_tol` on the first outer iteration
below the budget, the call stops with flag 1 after one iteration —
regardless of the recomputed Lagrangian gradient. -/
theorem C3_grad_recompute_amended {n : Nat} (f : Objective n) (con : Constr n)
    (grad : GradOracle n) (normF : NormFn n) (ls : LineSearch)
    (rho grad_tol delta_f_tol delta_x_tol : ℚ) (max_iter : Nat) (x : Vec n)
    (h1 : 1 < max_iter)
    (h2 : normF (grad f
        (al_body f con grad normF ls rho delta_f_tol delta_x_tol 0 (al_init con x)).x)
      ≤ grad_tol) :
    (augmented_lagrangian f con grad normF ls rho grad_tol delta_f_tol delta_x_tol max_iter x).flag = 1
    ∧ (augmented_lagrangian f con grad normF ls rho grad_tol delta_f_tol delta_x_tol max_iter x).iters = 1
    ∧ (al_body f con grad normF ls rho delta_f_tol delta_x_tol 0 (al_init con x)).dL
      = grad (fun y => calc_lagrangian f con y
          (al_body f con grad normF ls rho delta_f_tol delta_x_tol 0 (al_init con x)).lam
          (al_body f con grad normF ls rho delta_f_tol delta_x_tol 0 (al_init con x)).mu)
        (al_body f con grad normF ls rho delta_f_tol delta_x_tol 0 (al_init con x)).x := by
  have h := al_run_first_flag f con grad normF ls rho grad_tol delta_f_tol delta_x_tol
    max_iter x h1 h2
  refine ⟨?_, ?_, rfl⟩
  · simp only [augmented_lagrangian, h]
  · simp only [augmented_lagrangian, h]

/-- Witness for `C3_grad_recompute_amended` at the concrete one-variable
system (the objective gradient is identically zero, so the first outer
check fires flag 1). -/
theorem C3_amended_witness :
    (augmented_lagrangian alF alCon alGrad alNorm exLs 1 (1/2) 10 (1/100000) 100 alX).flag = 1 :=
  (C3_grad_recompute_amended alF alCon alGrad alNorm exLs 1 (1/2) 10 (1/100000) 100 alX
    (by omega) (by norm_num [alGrad, forward_diff, alF, alNorm])).1
